import Mathlib

/-!
Verification of the NetDebug client (worlds/netdebug/NetDebugClient.py): a
shallow embedding of the console command handlers (`_cmd_manset`,
`_cmd_allhints`), the packet reshaper (`DebugContext.on_package`) and the
`--url` handling in `launch`, together with theorems settling the frozen
claims about them.

Python values that flow through these functions (JSON-decoded operands,
outbound request messages, display events) are modelled by `PyValue`.
Python `dict`s are modelled as insertion-ordered association lists with
unique keys, matching CPython semantics for the dicts built here.
-/

/-- A Python/JSON value as used by the client: strings, ints, floats,
booleans, `None`, lists, and string-keyed dicts (JSON objects always have
string keys).  `float m e` carries the exact decimal value `m · 10^e` of
the parsed literal in lowest terms (Python rounds the same decimal to the
nearest IEEE-754 double; no claim inspects a float value, only whether one
parses).  `nan`, `inf` and `negInf` are the `NaN`/`Infinity`/`-Infinity`
constants Python `json.loads` accepts. -/
inductive PyValue where
  | str : String → PyValue
  | int : Int → PyValue
  | float : Int → Int → PyValue
  | nan : PyValue
  | inf : PyValue
  | negInf : PyValue
  | bool : Bool → PyValue
  | none : PyValue
  | list : List PyValue → PyValue
  | dict : List (String × PyValue) → PyValue
deriving Repr

/-- Python `str.startswith`. -/
def pyStartsWith (s pre : String) : Bool :=
  pre.data.isPrefixOf s.data

/-- Python whitespace for `str.split()` with no separator. -/
def pyWs (c : Char) : Bool :=
  c = ' ' || c = '\t' || c = '\n' || c = '\r' || c = '\x0b' || c = '\x0c'

/-- Worker for `str.split(maxsplit=m)`: at most `m` splits on runs of
whitespace; the final chunk keeps its internal and trailing whitespace. -/
def pySplitMaxAux : Nat → List Char → List String
  | 0, cs =>
    let cs := cs.dropWhile pyWs
    if cs.isEmpty then [] else [String.mk cs]
  | m + 1, cs =>
    let cs := cs.dropWhile pyWs
    if cs.isEmpty then []
    else
      String.mk (cs.takeWhile (fun c => !pyWs c)) ::
        pySplitMaxAux m (cs.dropWhile (fun c => !pyWs c))

/-- Python `s.split(maxsplit=m)` (whitespace splitting). -/
def pySplitMax (s : String) (m : Nat) : List String :=
  pySplitMaxAux m s.data

/-- Python `s.split(",")`: split on every comma, keeping empty chunks. -/
def pySplitComma : List Char → List String
  | [] => [""]
  | c :: rest =>
    if c = ',' then "" :: pySplitComma rest
    else
      match pySplitComma rest with
      | [] => [String.mk [c]]
      | t :: ts => String.mk (c :: t.data) :: ts

/-- Python `s[1:-1]`: drop the first and the last character. -/
def pySlice1m1 (s : String) : String :=
  String.mk ((s.data.drop 1).dropLast)

/-- Python `re.match` against a pattern anchoring start, `.*` and the end
anchor: the string is the opening delimiter, then a newline-free middle,
then the closing delimiter, optionally followed by one trailing newline
(`$` also matches just before a final newline; `.` never matches one). -/
def reDelimFull (opening closing : Char) (s : String) : Bool :=
  match s.data with
  | [] => false
  | c :: rest =>
    if c = opening then
      let body := if rest.getLast? = some '\n' then rest.dropLast else rest
      body.getLast? = some closing && (body.dropLast.all (fun x => x ≠ '\n'))
    else false

/-- The check `re.match(r"^\x7b.*\x7d$", text)` of `_cmd_manset`. -/
def reBraceFull (s : String) : Bool :=
  reDelimFull '\x7b' '\x7d' s

/-- The check `re.match(r"^\[.*\]$", text)` of `_cmd_manset`. -/
def reBracketFull (s : String) : Bool :=
  reDelimFull '[' ']' s

/-- JSON whitespace accepted by Python `json.loads`. -/
def jIsWs (c : Char) : Bool :=
  c = ' ' || c = '\t' || c = '\n' || c = '\r'

/-- One hexadecimal digit of a `\u` escape (both cases). -/
def jHexDigit (c : Char) : Option Nat :=
  if '0' ≤ c ∧ c ≤ '9' then Option.some (c.toNat - '0'.toNat)
  else if 'a' ≤ c ∧ c ≤ 'f' then Option.some (c.toNat - 'a'.toNat + 10)
  else if 'A' ≤ c ∧ c ≤ 'F' then Option.some (c.toNat - 'A'.toNat + 10)
  else Option.none

/-- The four hexadecimal digits of a `\u` escape. -/
def jHex4 (cs : List Char) : Option (Nat × List Char) :=
  match cs with
  | a :: b :: c :: d :: rest =>
    match jHexDigit a, jHexDigit b, jHexDigit c, jHexDigit d with
    | Option.some x, Option.some y, Option.some z, Option.some w =>
      Option.some (((x * 16 + y) * 16 + z) * 16 + w, rest)
    | _, _, _, _ => Option.none
  | _ => Option.none

/-- JSON string body per Python `json.loads` in its default strict mode:
characters up to the closing quote, rejecting unescaped control characters
(code below 0x20), with the standard single-character escapes and `\u`
escapes, a high surrogate pairing with an immediately following low
surrogate.  An unpaired surrogate escape yields a Python `str` outside the
Unicode scalar values, which a Lean `Char` cannot carry: that corner is
outside the modelled fragment and fails. -/
def jStringAux : Nat → List Char → List Char → Option (String × List Char)
  | 0, _, _ => Option.none
  | _, [], _ => Option.none
  | f + 1, c :: rest, acc =>
    if c = '"' then Option.some (String.mk acc.reverse, rest)
    else if c = '\\' then
      match rest with
      | [] => Option.none
      | e :: rest2 =>
        if e = '"' then jStringAux f rest2 ('"' :: acc)
        else if e = '\\' then jStringAux f rest2 ('\\' :: acc)
        else if e = '/' then jStringAux f rest2 ('/' :: acc)
        else if e = 'b' then jStringAux f rest2 ('\x08' :: acc)
        else if e = 'f' then jStringAux f rest2 ('\x0c' :: acc)
        else if e = 'n' then jStringAux f rest2 ('\n' :: acc)
        else if e = 'r' then jStringAux f rest2 ('\r' :: acc)
        else if e = 't' then jStringAux f rest2 ('\t' :: acc)
        else if e = 'u' then
          match jHex4 rest2 with
          | Option.none => Option.none
          | Option.some (n, rest3) =>
            if n < 0xD800 || 0xDFFF < n then jStringAux f rest3 (Char.ofNat n :: acc)
            else if n ≤ 0xDBFF then
              match rest3 with
              | '\\' :: 'u' :: rest4 =>
                match jHex4 rest4 with
                | Option.some (n2, rest5) =>
                  if 0xDC00 ≤ n2 ∧ n2 ≤ 0xDFFF then
                    jStringAux f rest5
                      (Char.ofNat (0x10000 + (n - 0xD800) * 0x400 + (n2 - 0xDC00)) :: acc)
                  else Option.none
                | Option.none => Option.none
              | _ => Option.none
            else Option.none
        else Option.none
    else if c.toNat < 0x20 then Option.none
    else jStringAux f rest (c :: acc)

/-- Decimal digits to their value. -/
def jDigitsToNat (ds : List Char) : Nat :=
  ds.foldl (fun n c => n * 10 + (c.toNat - '0'.toNat)) 0

/-- Strip factors of ten from a float mantissa into the exponent, to reach
the lowest-terms decimal representation (the fuel is the digit count). -/
def stripTens : Nat → Nat → Int → Nat × Int
  | 0, m, e => (m, e)
  | f + 1, m, e => if m % 10 = 0 && m != 0 then stripTens f (m / 10) (e + 1) else (m, e)

/-- The float `sign · digits · 10^exp10` as a `PyValue.float` in lowest
terms (zero normalizes to `float 0 0`, so `-0.0` and `0.0` coincide, as
they compare equal in Python). -/
def mkJFloat (neg : Bool) (digits : List Char) (exp10 : Int) : PyValue :=
  let m := jDigitsToNat digits
  if m = 0 then PyValue.float 0 0
  else
    let p := stripTens digits.length m exp10
    PyValue.float (if neg then -(p.1 : Int) else (p.1 : Int)) p.2

/-- Optional exponent part `[eE][+-]?digits` of a JSON number:
`(Option.none, cs)` when no exponent marker follows, failure on a marker
with no digits. -/
def jExpPart (cs : List Char) : Option (Option Int × List Char) :=
  match cs with
  | [] => Option.some (Option.none, [])
  | c :: r1 =>
    if c = 'e' || c = 'E' then
      let p : Bool × List Char :=
        match r1 with
        | '+' :: t => (false, t)
        | '-' :: t => (true, t)
        | _ => (false, r1)
      let D := p.2.takeWhile Char.isDigit
      if D.isEmpty then Option.none
      else
        Option.some (Option.some (if p.1 then -(jDigitsToNat D : Int) else (jDigitsToNat D : Int)),
          p.2.dropWhile Char.isDigit)
    else Option.some (Option.none, cs)

/-- JSON number after the optional minus: `0` or a nonzero-led digit run,
then an optional `.digits` fraction and an optional exponent; an integer
when neither fraction nor exponent is present, a float otherwise, as in
Python `json.loads`. -/
def jUNumber (neg : Bool) (cs : List Char) : Option (PyValue × List Char) :=
  match cs with
  | [] => Option.none
  | d :: _ =>
    if !d.isDigit then Option.none
    else
      let I := cs.takeWhile Char.isDigit
      let r1 := cs.dropWhile Char.isDigit
      if d = '0' && I.length != 1 then Option.none
      else
        match r1 with
        | '.' :: r2 =>
          let F := r2.takeWhile Char.isDigit
          if F.isEmpty then Option.none
          else
            match jExpPart (r2.dropWhile Char.isDigit) with
            | Option.some (eo, r4) =>
              Option.some (mkJFloat neg (I ++ F) (eo.getD 0 - (F.length : Int)), r4)
            | Option.none => Option.none
        | _ =>
          match jExpPart r1 with
          | Option.some (Option.some e, r4) => Option.some (mkJFloat neg I e, r4)
          | Option.some (Option.none, r4) =>
            Option.some (PyValue.int (if neg then -(jDigitsToNat I : Int) else (jDigitsToNat I : Int)), r4)
          | Option.none => Option.none

/-- JSON number, covering the `-Infinity` constant Python accepts after a
minus. -/
def jNumber (cs : List Char) : Option (PyValue × List Char) :=
  match cs with
  | '-' :: t =>
    if t.take 8 = ['I', 'n', 'f', 'i', 'n', 'i', 't', 'y'] then
      Option.some (PyValue.negInf, t.drop 8)
    else jUNumber true t
  | _ => jUNumber false cs

/-- Insertion into a Python dict under construction: an existing key keeps
its position and gets the new value, a new key is appended. -/
def dictInsert (k : String) (v : PyValue) : List (String × PyValue) → List (String × PyValue)
  | [] => [(k, v)]
  | (k', v') :: rest => if k' = k then (k, v) :: rest else (k', v') :: dictInsert k v rest

/-- Parser state: a value, object members after `\x7b` or after a comma,
array items after `[` or after a comma. -/
inductive JMode where
  | val : JMode
  | members : Bool → List (String × PyValue) → JMode
  | items : Bool → List PyValue → JMode

/-- Recursive-descent JSON parser (fuelled), modelling Python `json.loads`
in its default strict mode: objects, arrays, strings (control characters
rejected, escapes and surrogate-paired `\u` escapes decoded), integers and
floats, `true`/`false`/`null`, and the nonstandard `NaN`/`Infinity`/
`-Infinity` constants Python accepts. -/
def jParse : Nat → JMode → List Char → Option (PyValue × List Char)
  | 0, _, _ => Option.none
  | f + 1, JMode.val, cs =>
    match cs.dropWhile jIsWs with
    | [] => Option.none
    | c :: rest =>
      if c = '"' then
        match jStringAux (rest.length + 1) rest [] with
        | Option.some (s, r) => Option.some (PyValue.str s, r)
        | Option.none => Option.none
      else if c = '\x7b' then jParse f (JMode.members true []) rest
      else if c = '[' then jParse f (JMode.items true []) rest
      else if c = '-' || c.isDigit then jNumber (c :: rest)
      else if (c :: rest).take 3 = ['N', 'a', 'N'] then
        Option.some (PyValue.nan, (c :: rest).drop 3)
      else if (c :: rest).take 8 = ['I', 'n', 'f', 'i', 'n', 'i', 't', 'y'] then
        Option.some (PyValue.inf, (c :: rest).drop 8)
      else if (c :: rest).take 4 = ['t', 'r', 'u', 'e'] then
        Option.some (PyValue.bool true, (c :: rest).drop 4)
      else if (c :: rest).take 5 = ['f', 'a', 'l', 's', 'e'] then
        Option.some (PyValue.bool false, (c :: rest).drop 5)
      else if (c :: rest).take 4 = ['n', 'u', 'l', 'l'] then
        Option.some (PyValue.none, (c :: rest).drop 4)
      else Option.none
  | f + 1, JMode.members first acc, cs =>
    match cs.dropWhile jIsWs with
    | [] => Option.none
    | c :: rest =>
      if c = '\x7d' then
        if first then Option.some (PyValue.dict acc, rest) else Option.none
      else if c = '"' then
        match jStringAux (rest.length + 1) rest [] with
        | Option.none => Option.none
        | Option.some (k, r1) =>
          match r1.dropWhile jIsWs with
          | ':' :: r2 =>
            match jParse f JMode.val r2 with
            | Option.none => Option.none
            | Option.some (v, r3) =>
              match r3.dropWhile jIsWs with
              | ',' :: r4 => jParse f (JMode.members false (dictInsert k v acc)) r4
              | '\x7d' :: r4 => Option.some (PyValue.dict (dictInsert k v acc), r4)
              | _ => Option.none
          | _ => Option.none
      else Option.none
  | f + 1, JMode.items first acc, cs =>
    match cs.dropWhile jIsWs with
    | [] => Option.none
    | c :: rest =>
      if c = ']' && first then Option.some (PyValue.list [], rest)
      else
        match jParse f JMode.val (c :: rest) with
        | Option.none => Option.none
        | Option.some (v, r1) =>
          match r1.dropWhile jIsWs with
          | ',' :: r2 => jParse f (JMode.items false (acc ++ [v])) r2
          | ']' :: r2 => Option.some (PyValue.list (acc ++ [v]), r2)
          | _ => Option.none

/-- Python `json.loads` (default strict mode): parse one value, allow only
trailing whitespace after it. -/
def jsonLoads (s : String) : Option PyValue :=
  match jParse (4 * s.data.length + 16) JMode.val s.data with
  | Option.some (v, rest) => if rest.dropWhile jIsWs = [] then Option.some v else Option.none
  | Option.none => Option.none

/-- Errors a modelled handler can raise: Python `IndexError` from an
out-of-range list index, and the `json.JSONDecodeError` raised by
`json.loads` on malformed input. -/
inductive PyError where
  | indexError : PyError
  | jsonError : PyError
deriving Repr, DecidableEq

/-- Observable behaviour of one `_cmd_manset` invocation: the lines passed
to `logger.info` and the argument lists of the `send_msgs` calls, in
order. -/
structure MansetResult where
  logs : List String
  sent : List (List PyValue)
deriving Repr

/-- The `help_text` triple-quoted literal of `_cmd_manset`. -/
def mansetHelpText : String :=
  "    Format: /manset key operation value\n    Operations: replace, default, add, mul, pow, mod, floor, ceil, max, min, and, or, xor, left_shift, right_shift, remove, pop, update\n    For details on all operations, use /manset help OPERATION\n            "

/-- The `operations` dict of `_cmd_manset`, in insertion order. -/
def mansetOperations : List (String × String) :=
  [("replace", "Sets the current value of the key to `value`."),
   ("default", "If the key has no value yet, sets the current value of the key to `default` of the [Set](#Set)\x27s package (`value` is ignored)."),
   ("add", "Adds `value` to the current value of the key, if both the current value and `value` are arrays then `value` will be appended to the current value."),
   ("mul", "Multiplies the current value of the key by `value`."),
   ("pow", "Multiplies the current value of the key to the power of `value`."),
   ("mod", "Sets the current value of the key to the remainder after division by `value`."),
   ("floor", "Floors the current value (`value` is ignored)."),
   ("ceil", "Ceils the current value (`value` is ignored)."),
   ("max", "Sets the current value of the key to `value` if `value` is bigger."),
   ("min", "Sets the current value of the key to `value` if `value` is lower."),
   ("and", "Applies a bitwise AND to the current value of the key with `value`."),
   ("or", "Applies a bitwise OR to the current value of the key with `value`."),
   ("xor", "Applies a bitwise Exclusive OR to the current value of the key with `value`."),
   ("left_shift", "Applies a bitwise left-shift to the current value of the key by `value`."),
   ("right_shift", "Applies a bitwise right-shift to the current value of the key by `value`."),
   ("remove", "List only: removes the first instance of `value` found in the list."),
   ("pop", "List or Dict: for lists it will remove the index of the `value` given. for dicts it removes the element with the specified key of `value`."),
   ("update", "Dict only: Updates the dictionary with the specified elements given in `value` creating new keys, or updating old ones if they previously existed.")]

/-- Dict lookup `operations[op]`, with `op in operations.keys()` as
`(mansetLookup op).isSome`. -/
def mansetLookup (op : String) : Option String :=
  (mansetOperations.find? (fun p => p.1 == op)).map Prod.snd

/-- Operand parsing of `_cmd_manset` (the `re.match`/`json.loads` chain on
`args[2]`): brace pattern first (JSON, a decode failure raising), then
bracket pattern (naive comma split of the inner text), else the raw
string. -/
def parseOperand (s : String) : Except PyError PyValue :=
  if reBraceFull s then
    match jsonLoads s with
    | Option.some v => Except.ok v
    | Option.none => Except.error PyError.jsonError
  else if reBracketFull s then
    Except.ok (PyValue.list ((pySplitComma (pySlice1m1 s).data).map PyValue.str))
  else Except.ok (PyValue.str s)

/-- The single `Set` request dict built by `_cmd_manset`. -/
def mkSetMsg (key operation : String) (v : PyValue) : PyValue :=
  PyValue.dict [("cmd", PyValue.str "Set"), ("key", PyValue.str key),
    ("operations", PyValue.list [PyValue.dict [("operation", PyValue.str operation), ("value", v)]])]

/-- `DebugCommandProcessor._cmd_manset`.  The help branch catches every
exception with a bare `except` (so a missing second token prints the
general help, and an unrecognized operation prints nothing); the set
branch indexes `args[0]`, `args[1]`, `args[2]` unguarded, raising
`IndexError` when fewer than three segments are present, and lets a
`json.loads` failure escape as well. -/
def cmdManset (raw : String) : Except PyError MansetResult :=
  if pyStartsWith raw "help" || raw == "" then
    let args := pySplitMax raw 1
    match args.get? 1 with
    | Option.none => Except.ok ⟨[mansetHelpText], []⟩
    | Option.some a1 =>
      match mansetLookup a1 with
      | Option.some desc =>
        Except.ok ⟨["  Operation: " ++ a1 ++ "\n  Effect: " ++ desc], []⟩
      | Option.none => Except.ok ⟨[], []⟩
  else
    let args := pySplitMax raw 2
    match args.get? 0 with
    | Option.none => Except.error PyError.indexError
    | Option.some key =>
      match args.get? 1 with
      | Option.none => Except.error PyError.indexError
      | Option.some operation =>
        match args.get? 2 with
        | Option.none => Except.error PyError.indexError
        | Option.some a2 =>
          match parseOperand a2 with
          | Except.error e => Except.error e
          | Except.ok v => Except.ok ⟨[], [[mkSetMsg key operation v]]⟩

/-- The requests a sequence of console lines hands to the transport: each
successful `_cmd_manset` invocation contributes its own `send_msgs`
argument lists (a raised exception contributes none). -/
def mansetTranscript (lines : List String) : List (List PyValue) :=
  lines.flatMap (fun l =>
    match cmdManset l with
    | Except.ok r => r.sent
    | Except.error _ => [])

/-- The single `Get` request dict used by `_cmd_allhints` and
`_cmd_manget`. -/
def mkGetMsg (keysArg : List String) : PyValue :=
  PyValue.dict [("cmd", PyValue.str "Get"), ("keys", PyValue.list (keysArg.map PyValue.str))]

/-- The hint-storage key `f"_read_hints_{team}_{c}"` for player index `c`. -/
def hintKeyFor (team : Int) (c : Nat) : String :=
  "_read_hints_" ++ toString team ++ "_" ++ toString c

/-- `DebugCommandProcessor._cmd_allhints`: one `send_msgs` call per player
index in `range(1, len(player_names))`, each with a single `Get` request
for that index's hint-storage key. -/
def cmdAllhints (playerNames : List String) (team : Int) : List (List PyValue) :=
  (List.range' 1 (playerNames.length - 1)).map (fun c => [mkGetMsg [hintKeyFor team c]])

/-- One hint record as stored under a `_read_hints_*` key (the fields
`on_package` reads from it). -/
structure HintRecord where
  receiving_player : Int
  item : Int
  item_flags : Int
  location : Int
  finding_player : Int
  found : Bool
deriving Repr, DecidableEq

/-- The `found_text` fragment chosen for a hint record. -/
def hintFoundText (h : HintRecord) : PyValue :=
  if h.found then
    PyValue.dict [("text", PyValue.str "(found)"), ("type", PyValue.str "color"), ("color", PyValue.str "green")]
  else
    PyValue.dict [("text", PyValue.str "(not found)"), ("type", PyValue.str "color"), ("color", PyValue.str "red")]

/-- The `PrintJSON` display event `on_package` assembles for one hint
record.  The `NetworkItem` named tuple is modelled as a dict with its
field names; note the literal `flags=1` and `"found": False` in the
source. -/
def mkHintPrintJson (h : HintRecord) : PyValue :=
  PyValue.dict
    [("cmd", PyValue.str "PrintJSON"),
     ("data", PyValue.list
       [PyValue.dict [("text", PyValue.str "[Hint]: ")],
        PyValue.dict [("text", PyValue.int h.receiving_player), ("type", PyValue.str "player_id")],
        PyValue.dict [("text", PyValue.str "\x27s ")],
        PyValue.dict [("text", PyValue.int h.item), ("player", PyValue.int h.receiving_player),
                      ("flags", PyValue.int h.item_flags), ("type", PyValue.str "item_id")],
        PyValue.dict [("text", PyValue.str " is at ")],
        PyValue.dict [("text", PyValue.int h.location), ("player", PyValue.int h.finding_player),
                      ("type", PyValue.str "location_id")],
        PyValue.dict [("text", PyValue.str " in ")],
        PyValue.dict [("text", PyValue.int h.finding_player), ("type", PyValue.str "player_id")],
        PyValue.dict [("text", PyValue.str "\x27s World")],
        PyValue.dict [("text", PyValue.str ". ")],
        hintFoundText h]),
     ("type", PyValue.str "Hint"),
     ("receiving", PyValue.int h.receiving_player),
     ("item", PyValue.dict [("item", PyValue.int h.item), ("location", PyValue.int h.location),
                            ("player", PyValue.int h.finding_player), ("flags", PyValue.int 1)]),
     ("found", PyValue.bool false)]

/-- The session fields of `DebugContext` that `on_package` reads. -/
structure DebugCtx where
  team : Int
  slot : Int
  hasUI : Bool

/-- The local operator's own hint key
`f"_read_hints_{self.team}_{self.slot}"`. -/
def localHintKey (ctx : DebugCtx) : String :=
  "_read_hints_" ++ toString ctx.team ++ "_" ++ toString ctx.slot

/-- Observable behaviour of one `on_package` call: whether
`ui.update_hints` ran, and the events handed to `on_print_json`, in
order. -/
structure PackageEffects where
  uiRefreshed : Bool
  printed : List PyValue
deriving Repr

/-- Python truthiness of `args.get("keys")`: absent or an empty dict is
falsy. -/
def keysTruthy (keys : Option (List (String × List HintRecord))) : Bool :=
  match keys with
  | Option.none => false
  | Option.some ks => !ks.isEmpty

/-- `DebugContext.on_package`, restricted to its `Retrieved`/`SetReply`
branch.  `keys` models `args.get("keys")`: the returned dict, each value
being the list of hint records stored under that key (values of keys not
named `_read_hints_*` are never read by the source, so this typing loses
nothing).  The `Connected` branch only copies `slot_info[slot].game` into
`self.game` and is not modelled. -/
def onPackage (ctx : DebugCtx) (cmd : String) (keys : Option (List (String × List HintRecord))) :
    PackageEffects :=
  if (cmd == "Retrieved" || cmd == "SetReply") && keysTruthy keys then
    let ks := keys.getD []
    { uiRefreshed := ctx.hasUI && ks.any (fun p => p.1 == localHintKey ctx),
      printed := ks.flatMap (fun p =>
        if pyStartsWith p.1 "_read_hints_" then p.2.map mkHintPrintJson else []) }
  else ⟨false, []⟩

/-- The port-detection regex check `re.match(r"\d\x7b5\x7d", args.url)` in
`launch`: anchored at the start only, it asks whether the first five
characters are decimal digits (the argument may go on arbitrarily after
them).  The client only ever meets ASCII digits here. -/
def reMatchFiveDigits (s : String) : Bool :=
  match s.data with
  | a :: b :: c :: d :: e :: _ =>
    a.isDigit && b.isDigit && c.isDigit && d.isDigit && e.isDigit
  | _ => false

/-- The `raw_url` computed by `launch` from a non-empty `--url` argument. -/
def launchRawUrl (url : String) : String :=
  if reMatchFiveDigits url then "wss://archipelago.gg:" ++ url else url

/-- The spec's reading of the port heuristic, for comparison: the argument
is exactly five characters, all decimal digits. -/
def isFiveDigitNumericString (s : String) : Prop :=
  s.data.length = 5 ∧ ∀ c ∈ s.data, c.isDigit

/-- Python dict lookup `d[k]` on a modelled dict, `Option.none` when the
key is absent or the value is not a dict. -/
def pyDictGet (v : PyValue) (k : String) : Option PyValue :=
  match v with
  | PyValue.dict kvs => (kvs.find? (fun p => p.1 == k)).map Prod.snd
  | _ => Option.none

/-- Last element of a modelled Python list. -/
def pyListLast (v : PyValue) : Option PyValue :=
  match v with
  | PyValue.list xs => xs.getLast?
  | _ => Option.none

/-- Element `n` of a modelled Python list. -/
def pyListNth (v : PyValue) (n : Nat) : Option PyValue :=
  match v with
  | PyValue.list xs => xs.get? n
  | _ => Option.none

/-- A `_cmd_manset` invocation that reaches the set branch with all three
segments present and a successfully parsed operand sends exactly one
single-operation `Set` request and logs nothing. -/
theorem cmdManset_set_eq (raw k op a2 : String) (v : PyValue)
    (hh : pyStartsWith raw "help" = false)
    (hs : pySplitMax raw 2 = [k, op, a2])
    (hv : parseOperand a2 = Except.ok v) :
    cmdManset raw = Except.ok ⟨[], [[mkSetMsg k op v]]⟩ := by
  have hne : raw ≠ "" := by
    intro h
    subst h
    simp [pySplitMax, pySplitMaxAux] at hs
  have hbe : (raw == "") = false := beq_eq_false_iff_ne.mpr hne
  simp [cmdManset, hh, hbe, hs, hv]

/-- C1: a `manset` line with at least three whitespace-separated segments
whose text does not begin with `help`, and whose operand parses, transmits
exactly one structured request `\x7bcmd: "Set", key: first segment,
operations: [\x7boperation: second segment, value: parsed operand\x7d]\x7d`
with a single-element operations list; two successive such invocations
yield two independent single-operation requests, never one batched
request.  (The claim's unconditional form fails when the operand matches
the brace pattern but is invalid JSON: see the counterexample.) -/
theorem manset_encodes_single_set_request
    (raw k op a2 raw2 k2 op2 b2 : String) (v w : PyValue)
    (hh : pyStartsWith raw "help" = false)
    (hs : pySplitMax raw 2 = [k, op, a2])
    (hv : parseOperand a2 = Except.ok v)
    (hh2 : pyStartsWith raw2 "help" = false)
    (hs2 : pySplitMax raw2 2 = [k2, op2, b2])
    (hv2 : parseOperand b2 = Except.ok w) :
    cmdManset raw = Except.ok ⟨[], [[mkSetMsg k op v]]⟩ ∧
    mkSetMsg k op v = PyValue.dict [("cmd", PyValue.str "Set"), ("key", PyValue.str k),
      ("operations", PyValue.list [PyValue.dict [("operation", PyValue.str op), ("value", v)]])] ∧
    mansetTranscript [raw, raw2] = [[mkSetMsg k op v], [mkSetMsg k2 op2 w]] := by
  refine ⟨cmdManset_set_eq raw k op a2 v hh hs hv, rfl, ?_⟩
  simp [mansetTranscript, cmdManset_set_eq raw k op a2 v hh hs hv,
    cmdManset_set_eq raw2 k2 op2 b2 w hh2 hs2 hv2]

/-- Witness for C1 at `manset foo add 5` and `manset foo add 3`. -/
theorem manset_encodes_single_set_request_witness :
    cmdManset "foo add 5" = Except.ok ⟨[], [[mkSetMsg "foo" "add" (PyValue.str "5")]]⟩ ∧
    mansetTranscript ["foo add 5", "foo add 3"] =
      [[mkSetMsg "foo" "add" (PyValue.str "5")], [mkSetMsg "foo" "add" (PyValue.str "3")]] := by
  have h := manset_encodes_single_set_request "foo add 5" "foo" "add" "5" "foo add 3" "foo" "add" "3"
    (PyValue.str "5") (PyValue.str "3") rfl rfl rfl rfl rfl rfl
  exact ⟨h.1, h.2.2⟩

/-- Counterexample to C1 as stated: `manset foo add \x7bbad\x7d` has three
segments and does not begin with `help`, yet transmits nothing — the
operand matches the brace pattern and `json.loads` raises on it, so the
invocation aborts with the decode error instead of sending a request. -/
theorem manset_invalid_json_sends_nothing :
    cmdManset "foo add \x7bbad\x7d" = Except.error PyError.jsonError := rfl

/-- C2: operand parsing tries brace-delimited JSON first, then the naive
bracket-delimited comma split (each piece an opaque string), else the
whole text is one opaque string; on the spec's examples,
`\x7b"a": 1\x7d` gives the mapping `a ↦ 1`, `[a,b,c]` the string sequence
`["a","b","c"]`, and `hello world` the literal string itself. -/
theorem manset_operand_parsing_rules (s : String) :
    parseOperand "\x7b\"a\": 1\x7d" = Except.ok (PyValue.dict [("a", PyValue.int 1)]) ∧
    parseOperand "[a,b,c]" = Except.ok (PyValue.list [PyValue.str "a", PyValue.str "b", PyValue.str "c"]) ∧
    parseOperand "hello world" = Except.ok (PyValue.str "hello world") ∧
    (reBraceFull s = true →
      parseOperand s =
        match jsonLoads s with
        | Option.some v => Except.ok v
        | Option.none => Except.error PyError.jsonError) ∧
    (reBraceFull s = false → reBracketFull s = true →
      parseOperand s = Except.ok (PyValue.list ((pySplitComma (pySlice1m1 s).data).map PyValue.str))) ∧
    (reBraceFull s = false → reBracketFull s = false →
      parseOperand s = Except.ok (PyValue.str s)) := by
  refine ⟨rfl, rfl, rfl, ?_, ?_, ?_⟩ <;> intros <;> simp [parseOperand, *]

/-- Witness for C2: the bracket rule applied at `[x,y]`. -/
theorem manset_operand_parsing_rules_witness :
    parseOperand "[x,y]" = Except.ok (PyValue.list [PyValue.str "x", PyValue.str "y"]) := by
  have h := (manset_operand_parsing_rules "[x,y]").2.2.2.2.1 rfl rfl
  exact h

/-- C3 (amended): a non-empty `manset` input that does not begin with
`help` and has fewer than three whitespace-separated segments raises an
uncaught `IndexError` inside the handler — it does not print the general
help text (only the empty input does). -/
theorem manset_short_input_raises (raw : String)
    (hh : pyStartsWith raw "help" = false)
    (hne : raw ≠ "")
    (hlen : (pySplitMax raw 2).length < 3) :
    cmdManset raw = Except.error PyError.indexError := by
  have hbe : (raw == "") = false := beq_eq_false_iff_ne.mpr hne
  rcases hsp : pySplitMax raw 2 with _ | ⟨a, _ | ⟨b, _ | ⟨c, t⟩⟩⟩
  · simp [cmdManset, hh, hbe, hsp]
  · simp [cmdManset, hh, hbe, hsp]
  · simp [cmdManset, hh, hbe, hsp]
  · rw [hsp] at hlen
    simp at hlen
    omega

/-- Witness for C3 (amended) at `manset foo bar`. -/
theorem manset_short_input_raises_witness :
    cmdManset "foo bar" = Except.error PyError.indexError :=
  manset_short_input_raises "foo bar" rfl (by decide) (by decide)

/-- Counterexample to C3 as stated: `manset foo` is non-empty, does not
begin with `help` and has fewer than three segments, yet it is not
swallowed silently — `args[1]` raises `IndexError` and no help text is
printed. -/
theorem manset_short_input_counterexample :
    cmdManset "foo" = Except.error PyError.indexError := rfl

/-- C4 (amended): `manset help` prints the (non-empty) general help and
`manset help replace` prints the (non-empty) description of `replace`, but
`manset help OP` for an argument matching no enumerated operation prints
nothing at all instead of falling back to the operations table. -/
theorem manset_help_behaviour (raw a0 a1 : String)
    (hp : pyStartsWith raw "help" = true)
    (hs : pySplitMax raw 1 = [a0, a1])
    (hunknown : mansetLookup a1 = Option.none) :
    cmdManset raw = Except.ok ⟨[], []⟩ ∧
    cmdManset "help" = Except.ok ⟨[mansetHelpText], []⟩ ∧
    mansetHelpText ≠ "" ∧
    cmdManset "help replace" =
      Except.ok ⟨["  Operation: replace\n  Effect: Sets the current value of the key to `value`."], []⟩ := by
  refine ⟨?_, rfl, by decide, rfl⟩
  simp [cmdManset, hp, hs, hunknown]

/-- Witness for C4 (amended) at `manset help bogus_op` (and the closed
help outputs). -/
theorem manset_help_behaviour_witness :
    cmdManset "help bogus_op" = Except.ok ⟨[], []⟩ ∧
    cmdManset "help" = Except.ok ⟨[mansetHelpText], []⟩ := by
  have h := manset_help_behaviour "help bogus_op" "help" "bogus_op" rfl rfl rfl
  exact ⟨h.1, h.2.1⟩

/-- Counterexample to C4 as stated: `manset help bogus_op` names no
enumerated operation, and instead of printing the full operations table it
logs nothing and sends nothing. -/
theorem manset_help_unknown_prints_nothing :
    cmdManset "help bogus_op" = Except.ok ⟨[], []⟩ := rfl

/-- C5: for a `Retrieved`/`SetReply` notification whose keys include a
`_read_hints_*` key, every hint record under that key yields a display
event whose fragments are, in order: "[Hint]: ", the receiving player,
"'s ", the item (annotated with its flags and the receiving player),
" is at ", the location (annotated with the finding player), " in ", the
finding player, "'s World", ". ", then "(found)" in green when the record
is found and "(not found)" in red otherwise. -/
theorem hint_reshaper_event_fragments (ctx : DebugCtx) (cmd k : String)
    (ks : List (String × List HintRecord)) (hints : List HintRecord) (h : HintRecord)
    (hcmd : cmd = "Retrieved" ∨ cmd = "SetReply")
    (hk : (k, hints) ∈ ks)
    (hpre : pyStartsWith k "_read_hints_" = true)
    (hmem : h ∈ hints) :
    mkHintPrintJson h ∈ (onPackage ctx cmd (Option.some ks)).printed ∧
    pyDictGet (mkHintPrintJson h) "data" = Option.some (PyValue.list
      [PyValue.dict [("text", PyValue.str "[Hint]: ")],
       PyValue.dict [("text", PyValue.int h.receiving_player), ("type", PyValue.str "player_id")],
       PyValue.dict [("text", PyValue.str "\x27s ")],
       PyValue.dict [("text", PyValue.int h.item), ("player", PyValue.int h.receiving_player),
                     ("flags", PyValue.int h.item_flags), ("type", PyValue.str "item_id")],
       PyValue.dict [("text", PyValue.str " is at ")],
       PyValue.dict [("text", PyValue.int h.location), ("player", PyValue.int h.finding_player),
                     ("type", PyValue.str "location_id")],
       PyValue.dict [("text", PyValue.str " in ")],
       PyValue.dict [("text", PyValue.int h.finding_player), ("type", PyValue.str "player_id")],
       PyValue.dict [("text", PyValue.str "\x27s World")],
       PyValue.dict [("text", PyValue.str ". ")],
       if h.found then
         PyValue.dict [("text", PyValue.str "(found)"), ("type", PyValue.str "color"),
                       ("color", PyValue.str "green")]
       else
         PyValue.dict [("text", PyValue.str "(not found)"), ("type", PyValue.str "color"),
                       ("color", PyValue.str "red")]]) := by
  constructor
  · have hguard : ((cmd == "Retrieved" || cmd == "SetReply") && keysTruthy (Option.some ks)) = true := by
      have hne : ks ≠ [] := List.ne_nil_of_mem hk
      rcases hcmd with rfl | rfl <;> simp [keysTruthy, hne]
    simp only [onPackage, hguard, if_true, Option.getD]
    exact List.mem_flatMap.mpr ⟨(k, hints), hk, by simp [hpre, List.mem_map]; exact ⟨h, hmem, rfl⟩⟩
  · rfl

/-- Witness for C5 at the spec's example record under key
`_read_hints_1_2`. -/
theorem hint_reshaper_event_fragments_witness :
    mkHintPrintJson ⟨2, 10, 1, 5, 3, true⟩ ∈
      (onPackage ⟨1, 2, false⟩ "Retrieved"
        (Option.some [("_read_hints_1_2", [⟨2, 10, 1, 5, 3, true⟩])])).printed :=
  (hint_reshaper_event_fragments ⟨1, 2, false⟩ "Retrieved" "_read_hints_1_2"
    [("_read_hints_1_2", [⟨2, 10, 1, 5, 3, true⟩])] [⟨2, 10, 1, 5, 3, true⟩] ⟨2, 10, 1, 5, 3, true⟩
    (Or.inl rfl) (by simp) rfl (by simp)).1

/-- C6: with `count` known players, `allhints` issues exactly `count - 1`
separate `Get` requests, one for each player index from 1 to `count - 1`
(index 0 skipped), each for that index's hint-storage key. -/
theorem allhints_one_get_per_player (playerNames : List String) (team : Int) :
    (cmdAllhints playerNames team).length = playerNames.length - 1 ∧
    (∀ c : Nat, 1 ≤ c → c < playerNames.length →
      [mkGetMsg [hintKeyFor team c]] ∈ cmdAllhints playerNames team) ∧
    (∀ m ∈ cmdAllhints playerNames team,
      ∃ c : Nat, 1 ≤ c ∧ c < playerNames.length ∧ m = [mkGetMsg [hintKeyFor team c]]) := by
  refine ⟨by simp [cmdAllhints], ?_, ?_⟩
  · intro c h1 h2
    simp only [cmdAllhints, List.mem_map]
    exact ⟨c, List.mem_range'_1.mpr ⟨h1, by omega⟩, rfl⟩
  · intro m hm
    rcases List.mem_map.mp hm with ⟨c, hc, rfl⟩
    rcases List.mem_range'_1.mp hc with ⟨hc1, hc2⟩
    exact ⟨c, hc1, by omega, rfl⟩

/-- Witness for C6 with three known players: two requests, and the one for
index 1 is among them. -/
theorem allhints_one_get_per_player_witness :
    (cmdAllhints ["Archipelago", "B", "C"] 1).length = 2 ∧
    [mkGetMsg [hintKeyFor 1 1]] ∈ cmdAllhints ["Archipelago", "B", "C"] 1 := by
  have h := allhints_one_get_per_player ["Archipelago", "B", "C"] 1
  exact ⟨h.1, h.2.1 1 (by decide) (by decide)⟩

/-- C7: every synthesized hint display event carries a hard-coded
top-level `found: False` and an embedded item whose `flags` is the
literal 1, whatever the record said; the record's true `found` and
`item_flags` only reach the textual status fragment and the item
fragment's annotation. -/
theorem hint_event_hardcoded_fields (h : HintRecord) :
    pyDictGet (mkHintPrintJson h) "found" = Option.some (PyValue.bool false) ∧
    Option.bind (pyDictGet (mkHintPrintJson h) "item") (fun it => pyDictGet it "flags") =
      Option.some (PyValue.int 1) ∧
    Option.bind (pyDictGet (mkHintPrintJson h) "data") pyListLast =
      Option.some (if h.found then
        PyValue.dict [("text", PyValue.str "(found)"), ("type", PyValue.str "color"),
                      ("color", PyValue.str "green")]
      else
        PyValue.dict [("text", PyValue.str "(not found)"), ("type", PyValue.str "color"),
                      ("color", PyValue.str "red")]) ∧
    Option.bind (pyDictGet (mkHintPrintJson h) "data") (fun d => pyListNth d 3) =
      Option.some (PyValue.dict [("text", PyValue.int h.item), ("player", PyValue.int h.receiving_player),
        ("flags", PyValue.int h.item_flags), ("type", PyValue.str "item_id")]) :=
  ⟨rfl, rfl, rfl, rfl⟩

/-- C8: any `manset` input whose text begins with the four characters
`help` — `helper`, `helpful`, ... included — stays in the help branch, so
no `Set` request is ever transmitted and no key named `help*` can be
mutated through `manset`. -/
theorem manset_help_prefix_never_sends (raw : String)
    (hp : pyStartsWith raw "help" = true) :
    ∃ r, cmdManset raw = Except.ok r ∧ r.sent = [] := by
  simp only [cmdManset, hp, Bool.true_or, if_true]
  cases h1 : (pySplitMax raw 1).get? 1 with
  | none => exact ⟨_, rfl, rfl⟩
  | some a1 =>
    cases h2 : mansetLookup a1 with
    | none => exact ⟨⟨[], []⟩, by simp [h2], rfl⟩
    | some desc =>
      exact ⟨⟨["  Operation: " ++ a1 ++ "\n  Effect: " ++ desc], []⟩, by simp [h2], rfl⟩

/-- Witness for C8 at `manset helper add 5`: a key named `helper` cannot
be set. -/
theorem manset_help_prefix_never_sends_witness :
    ∃ r, cmdManset "helper add 5" = Except.ok r ∧ r.sent = [] :=
  manset_help_prefix_never_sends "helper add 5" rfl

/-- C9: a UI refresh is triggered by `on_package` exactly when the packet
is a `Retrieved` or `SetReply` whose returned keys include the local
operator's own hint key and a UI is present; any other notification
triggers none. -/
theorem local_hint_key_triggers_ui_refresh (ctx : DebugCtx) (cmd : String)
    (keys : Option (List (String × List HintRecord))) :
    (onPackage ctx cmd keys).uiRefreshed = true ↔
      (ctx.hasUI = true ∧ (cmd = "Retrieved" ∨ cmd = "SetReply") ∧
       ∃ ks, keys = Option.some ks ∧ localHintKey ctx ∈ ks.map Prod.fst) := by
  constructor
  · intro h
    rw [onPackage] at h
    by_cases hg : ((cmd == "Retrieved" || cmd == "SetReply") && keysTruthy keys) = true
    · rw [if_pos hg] at h
      simp only [Bool.and_eq_true, Bool.or_eq_true, beq_iff_eq] at hg
      rcases keys with _ | ks
      · simp [keysTruthy] at hg
      · simp only [Option.getD, Bool.and_eq_true, List.any_eq_true, beq_iff_eq] at h
        rcases h with ⟨hui, p, hp, hkey⟩
        exact ⟨hui, hg.1, ks, rfl, List.mem_map.mpr ⟨p, hp, hkey⟩⟩
    · rw [if_neg hg] at h
      exact absurd h (by simp)
  · rintro ⟨hui, hcmd, ks, rfl, hmem⟩
    rcases List.mem_map.mp hmem with ⟨p, hp, hkey⟩
    have hg : ((cmd == "Retrieved" || cmd == "SetReply") && keysTruthy (Option.some ks)) = true := by
      have hne : ks ≠ [] := by
        intro h
        subst h
        exact absurd hp (List.not_mem_nil p)
      rcases hcmd with rfl | rfl <;> simp [keysTruthy, hne]
    rw [onPackage, if_pos hg]
    simp only [Option.getD, Bool.and_eq_true, List.any_eq_true, beq_iff_eq]
    exact ⟨hui, p, hp, hkey⟩

/-- C10 (amended): the `--url` argument is turned into
`wss://archipelago.gg:<argument>` exactly when its first five characters
are decimal digits — the regex is unanchored at the end, so longer
arguments and arguments with trailing non-digits also count; any other
argument is used as the connection URL as given. -/
theorem url_port_prefix_detection (url : String) :
    (launchRawUrl url = "wss://archipelago.gg:" ++ url ↔ reMatchFiveDigits url = true) ∧
    (reMatchFiveDigits url = false → launchRawUrl url = url) := by
  constructor
  · constructor
    · intro h
      by_cases hm : reMatchFiveDigits url = true
      · exact hm
      · rw [launchRawUrl, if_neg hm] at h
        have hlen := congrArg String.length h
        rw [String.length_append] at hlen
        have h21 : ("wss://archipelago.gg:" : String).length = 21 := rfl
        rw [h21] at hlen
        omega
    · intro hm
      rw [launchRawUrl, if_pos hm]
  · intro hm
    rw [launchRawUrl, if_neg (by simp [hm])]

/-- Witness for C10 (amended): a host-and-port argument starting with a
letter is used as given. -/
theorem url_port_prefix_detection_witness :
    launchRawUrl "archipelago.gg:38281" = "archipelago.gg:38281" :=
  (url_port_prefix_detection "archipelago.gg:38281").2 rfl

/-- Counterexample to C10 as stated: `--url 123456` is not a 5-digit
numeric string, yet it is still interpreted as a port against the default
host — the regex only anchors the start. -/
theorem url_port_detection_counterexample :
    launchRawUrl "123456" = "wss://archipelago.gg:123456" ∧
    ¬ isFiveDigitNumericString "123456" ∧
    launchRawUrl "123456" ≠ "123456" :=
  ⟨rfl, fun hc => absurd hc.1 (by decide), by decide⟩

/-- Witness for C7 at the spec's example record. -/
theorem hint_event_hardcoded_fields_witness :
    pyDictGet (mkHintPrintJson ⟨2, 10, 1, 5, 3, true⟩) "found" = Option.some (PyValue.bool false) :=
  (hint_event_hardcoded_fields ⟨2, 10, 1, 5, 3, true⟩).1

/-- Witness for C9: a `Retrieved` packet carrying the local key
`_read_hints_1_2` refreshes the UI of the team-1 slot-2 operator. -/
theorem local_hint_key_triggers_ui_refresh_witness :
    (onPackage ⟨1, 2, true⟩ "Retrieved"
      (Option.some [("_read_hints_1_2", [])])).uiRefreshed = true :=
  (local_hint_key_triggers_ui_refresh ⟨1, 2, true⟩ "Retrieved"
    (Option.some [("_read_hints_1_2", [])])).mpr
    ⟨rfl, Or.inl rfl, [("_read_hints_1_2", [])], rfl, by simp [localHintKey]; rfl⟩

/-- Boundary check for the JSON model: a brace operand that is valid JSON
with a float, which Python `json.loads` accepts, is parsed and the Set
request is transmitted. -/
theorem cmdManset_float_json_transmits :
    cmdManset "foo replace \x7b\"a\": 1.5\x7d" =
      Except.ok ⟨[], [[mkSetMsg "foo" "replace" (PyValue.dict [("a", PyValue.float 15 (-1))])]]⟩ := rfl

/-- Boundary check for the JSON model: a literal control character (here a
tab) inside a JSON string is rejected by Python `json.loads` in strict
mode, so the invocation raises and transmits nothing. -/
theorem cmdManset_control_char_raises :
    cmdManset "foo add \x7b\"a\": \"x\ty\"\x7d" = Except.error PyError.jsonError := rfl
